import Mathlib

/-!
Verification of the bridge audio-capture system: a shallow embedding of the
Swift capture worker (AudioRecorder.swift), the Node host bridge
(audio-bridge.js) and the Electron main-process IPC handlers, together with
proofs about the write-error threshold policy, the line framer, the promise
settlement discipline and the permission check.
-/

/-- Protocol message codes emitted by the capture worker on stdout, one JSON
object per line.  Codes that carry a protocol-relevant numeric field keep it;
free-text diagnostic fields are dropped. -/
inductive Msg where
  | permissionGranted
  | permissionDenied
  | invalidArgs
  | contentError
  | noDisplay
  | fileError
  | streamError
  | recordingStarted
  | stopping
  | recordingStopped
  | stopError
  | bufferConversionError (count : Nat)
  | writeError (count : Nat)
  | tooManyErrors
  | debug
  | streamStopped
  deriving DecidableEq

/-- Threshold of consecutive write errors that aborts the session
(`maxWriteErrors` in AudioRecorder.swift). -/
def maxWriteErrors : Nat := 10

/-- Mutable state of the worker that the stream callback touches:
`streamStarted` and `writeErrorCount` in AudioRecorder.swift. -/
structure WorkerState where
  streamStarted : Bool
  writeErrorCount : Nat
  deriving DecidableEq

/-- Outcome of processing one delivered audio sample: the buffer conversion
(`toPCMBuffer`) fails, or the `audioFile.write` succeeds, or it throws. -/
inductive SampleOutcome where
  | convFail
  | writeOk
  | writeFail
  deriving DecidableEq

/-- A delivery of the stream output callback: either a non-audio sample
(dropped by the `type == .audio` guard) or an audio sample with its
processing outcome. -/
inductive SampleEvent where
  | nonAudio
  | audio (o : SampleOutcome)
  deriving DecidableEq

/-- Result of one or more callback invocations: the updated worker state, the
messages sent, and whether `cleanup()` was initiated. -/
structure StepResult where
  state : WorkerState
  msgs : List Msg
  stopped : Bool
  deriving DecidableEq

/-- Embedding of `stream(_:didOutputSampleBuffer:of:)` in AudioRecorder.swift:
the guard drops non-audio samples and samples before `streamStarted`; a failed
buffer conversion increments `writeErrorCount` and reports
`BUFFER_CONVERSION_ERROR` only while the counter is below 5; a successful
write resets the counter; a failed write increments it, reports `WRITE_ERROR`,
and on reaching `maxWriteErrors` reports `TOO_MANY_ERRORS` and calls
`cleanup()`. -/
def streamCallback (st : WorkerState) (ev : SampleEvent) : StepResult :=
  match ev with
  | .nonAudio => ⟨st, [], false⟩
  | .audio o =>
    if st.streamStarted then
      match o with
      | .convFail =>
        let c := st.writeErrorCount + 1
        ⟨{ st with writeErrorCount := c },
         if c < 5 then [.bufferConversionError c] else [], false⟩
      | .writeOk => ⟨{ st with writeErrorCount := 0 }, [], false⟩
      | .writeFail =>
        let c := st.writeErrorCount + 1
        if maxWriteErrors ≤ c then
          ⟨{ st with writeErrorCount := c }, [.writeError c, .tooManyErrors], true⟩
        else
          ⟨{ st with writeErrorCount := c }, [.writeError c], false⟩
    else ⟨st, [], false⟩

/-- Iterates `streamCallback` over a sequence of deliveries; once `cleanup()`
has been initiated no further sample is processed. -/
def runSamples (st : WorkerState) : List SampleEvent → StepResult
  | [] => ⟨st, [], false⟩
  | ev :: rest =>
    let r := streamCallback st ev
    if r.stopped then r
    else
      let r2 := runSamples r.state rest
      ⟨r2.state, r.msgs ++ r2.msgs, r2.stopped⟩

/-- Messages sent by `cleanup()` in AudioRecorder.swift: an optional
`STOP_ERROR` if `stopCapture` reported an error, then `RECORDING_STOPPED`;
the process then exits with status 0. -/
def cleanupMsgs (stopCaptureErr : Bool) : List Msg :=
  (if stopCaptureErr then [.stopError] else []) ++ [.recordingStopped]

/-- The streaming phase of a `--record` run: the sample deliveries are
processed; if the error threshold initiated `cleanup()` the stop path runs and
the process exits 0; otherwise, if a SIGINT arrives, the handler prints
`STOPPING` and `cleanup()` runs, again exiting 0; otherwise the worker keeps
waiting on its semaphore (no exit). -/
def streamingPhase (st : WorkerState) (samples : List SampleEvent)
    (interrupted stopCaptureErr : Bool) : List Msg × Option Nat :=
  let r := runSamples st samples
  if r.stopped then (r.msgs ++ cleanupMsgs stopCaptureErr, some 0)
  else if interrupted then (r.msgs ++ Msg.stopping :: cleanupMsgs stopCaptureErr, some 0)
  else (r.msgs, none)

/-- Embedding of the `startCapture` completion handler: on error it sends
`STREAM_ERROR` and exits 1; on success it sets `streamStarted := true` and
sends `RECORDING_STARTED`. -/
def startCaptureCompletion (st : WorkerState) (err : Bool) :
    WorkerState × List Msg × Option Nat :=
  if err then (st, [.streamError], some 1)
  else ({ st with streamStarted := true }, [.recordingStarted], none)

/-- Environment of a `--record` run: each field is one external decision point
of AudioRecorder.swift, in source order. -/
structure RecordEnv where
  permissionGranted : Bool
  contentError : Bool
  hasDisplay : Bool
  flacOk : Bool
  wavOk : Bool
  addOutputThrows : Bool
  startCaptureError : Bool
  samples : List SampleEvent
  interrupted : Bool
  stopCaptureError : Bool
  deriving DecidableEq

/-- Embedding of the `--record` path (`startRecording`/`setupStream` in
AudioRecorder.swift): permission preflight, shareable-content enumeration,
display lookup, audio-file creation (FLAC, then a `DEBUG` message and a WAV
fallback, `FILE_ERROR` only if both fail), `addStreamOutput`/`startCapture`,
then the streaming phase.  Returns the emitted messages and the exit status
(`none` while the worker is still blocked on its semaphore). -/
def workerRecord (e : RecordEnv) : List Msg × Option Nat :=
  if e.permissionGranted = false then ([.permissionDenied], some 1)
  else if e.contentError then ([.contentError], some 1)
  else if e.hasDisplay = false then ([.noDisplay], some 1)
  else if e.flacOk = false ∧ e.wavOk = false then
    ((if e.flacOk then [] else [.debug]) ++ [.fileError], some 1)
  else if e.addOutputThrows then
    ((if e.flacOk then [] else [.debug]) ++ [.streamError], some 1)
  else if e.startCaptureError then
    ((if e.flacOk then [] else [.debug]) ++ (startCaptureCompletion ⟨false, 0⟩ true).2.1,
     (startCaptureCompletion ⟨false, 0⟩ true).2.2)
  else
    ((if e.flacOk then [] else [.debug])
       ++ (startCaptureCompletion ⟨false, 0⟩ false).2.1
       ++ (streamingPhase (startCaptureCompletion ⟨false, 0⟩ false).1
             e.samples e.interrupted e.stopCaptureError).1,
     (streamingPhase (startCaptureCompletion ⟨false, 0⟩ false).1
        e.samples e.interrupted e.stopCaptureError).2)

/-- Embedding of `checkPermissions` in AudioRecorder.swift: preflight granted
sends `PERMISSION_GRANTED` and exits 0; otherwise the consent request decides
between `PERMISSION_GRANTED` (exit 0) and `PERMISSION_DENIED` (exit 1). -/
def workerCheckPermissions (preflight requestGranted : Bool) : List Msg × Nat :=
  if preflight then ([.permissionGranted], 0)
  else if requestGranted then ([.permissionGranted], 0)
  else ([.permissionDenied], 1)

/-- Command-line shapes accepted by `AudioRecorder.main()`. -/
inductive Cli where
  | noArgs
  | checkPerms (preflight requestGranted : Bool)
  | recordNoPath
  | record (env : RecordEnv)
  | unknown
  deriving DecidableEq

/-- Embedding of `AudioRecorder.main()`: argument dispatch; malformed
invocations send `INVALID_ARGS` and exit 1. -/
def workerMain : Cli → List Msg × Option Nat
  | .noArgs => ([.invalidArgs], some 1)
  | .checkPerms p r => ((workerCheckPermissions p r).1, some (workerCheckPermissions p r).2)
  | .recordNoPath => ([.invalidArgs], some 1)
  | .record e => workerRecord e
  | .unknown => ([.invalidArgs], some 1)

/-- One step of the split performed by `stdoutBuffer.split('\n')` in
audio-bridge.js, processing one character: a newline opens a new (empty)
leading segment, any other character is prepended to the current leading
segment. -/
def splitStep (c : Char) (acc : List (List Char)) : List (List Char) :=
  if c = '\n' then [] :: acc
  else (c :: acc.headD []) :: acc.tail

/-- Embedding of the JavaScript `s.split('\n')`: the list of segments between
newlines, always nonempty (the split of the empty text is one empty
segment). -/
def splitNl (s : List Char) : List (List Char) :=
  s.foldr splitStep [[]]

/-- One `data` callback of the stdout handler in audio-bridge.js: append the
chunk to the accumulation buffer, split on newline, keep the trailing
(possibly incomplete) segment as the new buffer (`lines.pop()`), and process
the remaining segments, skipping empty ones (`lines.filter(Boolean)`).
Returns the new buffer and the processed candidate lines, in order. -/
def feed (buf chunk : List Char) : List Char × List (List Char) :=
  let segs := splitNl (buf ++ chunk)
  (segs.getLastD [], segs.dropLast.filter (fun l => l ≠ []))

/-- Folds `feed` over a sequence of read chunks, starting from a given buffer,
concatenating the candidate lines processed along the way. -/
def feedAll (buf : List Char) : List (List Char) → List Char × List (List Char)
  | [] => (buf, [])
  | c :: cs =>
    let r := feed buf c
    let r2 := feedAll r.1 cs
    (r2.1, r.2 ++ r2.2)

/-- How the promise returned by `startRecording` in audio-bridge.js ended up
settled. -/
inductive SettleResult where
  | resolvedStart
  | rejectedFatal (m : Msg)
  | rejectedExit (code : Nat)
  | rejectedSpawn
  deriving DecidableEq

/-- A candidate line after `JSON.parse`: either a known protocol message or
non-JSON text (routed to the debug listener). -/
inductive ParsedLine where
  | msg (m : Msg)
  | nonJson
  deriving DecidableEq

/-- Events observed by `startRecording`'s handlers, in arrival order: a parsed
stdout line, the process `close` event with its exit code (`none` for a null
code), or a spawn `error` event. -/
inductive SupEvent where
  | stdoutLine (l : ParsedLine)
  | closed (code : Option Nat)
  | spawnFailed
  deriving DecidableEq

/-- The codes grouped under the fatal-rejection cases of the `startRecording`
message switch in audio-bridge.js. -/
def isFatal (m : Msg) : Bool :=
  match m with
  | .permissionDenied | .contentError | .noDisplay | .fileError
  | .streamError | .tooManyErrors => true
  | _ => false

/-- Settlement state of the `startRecording` promise: the JavaScript
`resolved` flag and the actual (first-wins) promise settlement. -/
structure SupState where
  resolvedFlag : Bool
  settled : Option SettleResult
  deriving DecidableEq

/-- A promise settles only once: a `resolve`/`reject` call on an already
settled promise is a no-op. -/
def settleOnce (cur : Option SettleResult) (r : SettleResult) : Option SettleResult :=
  match cur with
  | some x => some x
  | none => some r

/-- Embedding of the `startRecording` handlers in audio-bridge.js:
`RECORDING_STARTED` sets the `resolved` flag and resolves; each of the six
fatal codes rejects if the flag is not yet set; the non-fatal codes, debug
messages and unparseable lines only notify listeners; `close` rejects only on
a non-zero, non-null exit code when the flag is not yet set; a spawn error
rejects without touching the flag. -/
def stepEvent (st : SupState) (e : SupEvent) : SupState :=
  match e with
  | .stdoutLine .nonJson => st
  | .stdoutLine (.msg m) =>
    if m = .recordingStarted then
      { resolvedFlag := true, settled := settleOnce st.settled .resolvedStart }
    else if isFatal m then
      if st.resolvedFlag then st
      else { resolvedFlag := true, settled := settleOnce st.settled (.rejectedFatal m) }
    else st
  | .closed none => st
  | .closed (some k) =>
    if k ≠ 0 ∧ st.resolvedFlag = false then
      { resolvedFlag := true, settled := settleOnce st.settled (.rejectedExit k) }
    else st
  | .spawnFailed => { st with settled := settleOnce st.settled .rejectedSpawn }

/-- Runs the `startRecording` promise machine over a whole event sequence from
the initial state. -/
def runSup (events : List SupEvent) : SupState :=
  events.foldl stepEvent ⟨false, none⟩

/-- Modelled from the claim: the promise resolves on the first
`RECORDING_STARTED` and rejects on the first earlier fatal code or non-zero
exit.  Used as the specification side of the settlement equivalence. -/
def specSettle : List SupEvent → Option SettleResult
  | [] => none
  | .stdoutLine (.msg m) :: rest =>
    if m = .recordingStarted then some .resolvedStart
    else if isFatal m then some (.rejectedFatal m)
    else specSettle rest
  | .stdoutLine .nonJson :: rest => specSettle rest
  | .closed (some k) :: rest => if k ≠ 0 then some (.rejectedExit k) else specSettle rest
  | .closed none :: rest => specSettle rest
  | .spawnFailed :: rest => specSettle rest

/-- Outcome of one `checkPermissions()` call on the host side. -/
inductive CheckResult where
  | resolved (granted : Bool)
  | threw
  deriving DecidableEq

/-- Embedding of `checkPermissions` in audio-bridge.js: on `close` with exit
code 0 the captured output is fed to `JSON.parse` with no surrounding
try/catch — an unparseable capture raises instead of settling; a parsed object
resolves to whether its `code` field is the granted code; any other exit code
(including null) resolves to false.  `parsedCode` is `none` when the capture
does not parse, otherwise the optional known code of the parsed object. -/
def checkPermissionsRun (closeCode : Option Nat)
    (parsedCode : Option (Option Msg)) : CheckResult :=
  match closeCode with
  | some 0 =>
    match parsedCode with
    | none => .threw
    | some c => .resolved (decide (c = some Msg.permissionGranted))
  | _ => .resolved false

/-- The composed permission check: the worker's `--check-permissions` run
produces an exit code and a single JSON line, which the host then parses. -/
def composedPermissionCheck (preflight requestGranted : Bool) : CheckResult :=
  let w := workerCheckPermissions preflight requestGranted
  checkPermissionsRun (some w.2) (some (some (w.1.headD .debug)))

/-- Result of the `start-system-audio` IPC handler in src/main/index.js. -/
inductive StartOutcome where
  | notMac
  | alreadyInProgress
  | started
  | startFailed
  deriving DecidableEq

/-- Effect of one `start-system-audio` request: the `activeRecorder` slot
afterwards, the request outcome, and whether a worker process was spawned. -/
structure StartStep where
  activeAfter : Bool
  outcome : StartOutcome
  spawned : Bool
  deriving DecidableEq

/-- Embedding of the `start-system-audio` handler in src/main/index.js: a
non-macOS platform throws; an occupied `activeRecorder` slot throws
"Recording already in progress" before any process is spawned; otherwise the
worker is spawned and the slot is filled once `startRecording` resolves. -/
def startSystemAudio (activeRecorder isDarwin recordingStarts : Bool) : StartStep :=
  if isDarwin = false then ⟨activeRecorder, .notMac, false⟩
  else if activeRecorder then ⟨activeRecorder, .alreadyInProgress, false⟩
  else if recordingStarts then ⟨true, .started, true⟩
  else ⟨false, .startFailed, true⟩


lemma streamCallback_streamStarted (st : WorkerState) (ev : SampleEvent) :
    (streamCallback st ev).state.streamStarted = st.streamStarted := by
  cases ev with
  | nonAudio => rfl
  | audio o =>
    cases hss : st.streamStarted with
    | false => simp [streamCallback, hss]
    | true =>
      cases o with
      | convFail => simp [streamCallback, hss]
      | writeOk => simp [streamCallback, hss]
      | writeFail =>
        simp only [streamCallback, hss, if_true]
        split <;> simp [hss]

lemma runSamples_streamStarted (evs : List SampleEvent) (st : WorkerState) :
    (runSamples st evs).state.streamStarted = st.streamStarted := by
  induction evs generalizing st with
  | nil => rfl
  | cons ev rest ih =>
    simp only [runSamples]
    split
    · exact streamCallback_streamStarted st ev
    · simp [ih, streamCallback_streamStarted]

lemma runSamples_append (a b : List SampleEvent) (st : WorkerState)
    (h : (runSamples st a).stopped = false) :
    runSamples st (a ++ b) =
      ⟨(runSamples (runSamples st a).state b).state,
       (runSamples st a).msgs ++ (runSamples (runSamples st a).state b).msgs,
       (runSamples (runSamples st a).state b).stopped⟩ := by
  induction a generalizing st with
  | nil => simp [runSamples]
  | cons ev rest ih =>
    simp only [runSamples, List.cons_append] at h ⊢
    by_cases hs : (streamCallback st ev).stopped
    · simp [hs] at h
    · simp only [hs, if_neg, Bool.false_eq_true, ite_false] at h ⊢
      simp [ih _ h, List.append_assoc]

lemma runSamples_append_stopped (a b : List SampleEvent) (st : WorkerState)
    (h : (runSamples st a).stopped = true) :
    runSamples st (a ++ b) = runSamples st a := by
  induction a generalizing st with
  | nil => simp [runSamples] at h
  | cons ev rest ih =>
    simp only [runSamples, List.cons_append] at h ⊢
    by_cases hs : (streamCallback st ev).stopped
    · simp [hs]
    · simp only [hs, Bool.false_eq_true, ite_false] at h ⊢
      simp [ih _ h]

lemma runSamples_ten_writeFail :
    runSamples ⟨true, 0⟩ (List.replicate 10 (.audio .writeFail)) =
      ⟨⟨true, 10⟩,
       [.writeError 1, .writeError 2, .writeError 3, .writeError 4, .writeError 5,
        .writeError 6, .writeError 7, .writeError 8, .writeError 9, .writeError 10,
        .tooManyErrors], true⟩ := by decide

lemma streamCallback_msgs_shape (st : WorkerState) (ev : SampleEvent) (m : Msg)
    (h : m ∈ (streamCallback st ev).msgs) :
    (∃ n, m = .bufferConversionError n) ∨ (∃ n, m = .writeError n) ∨ m = .tooManyErrors := by
  cases ev with
  | nonAudio => simp [streamCallback] at h
  | audio o =>
    cases hss : st.streamStarted with
    | false => simp [streamCallback, hss] at h
    | true =>
      cases o with
      | convFail =>
        simp only [streamCallback, hss, if_true] at h
        split at h <;> simp at h
        exact Or.inl ⟨_, h⟩
      | writeOk => simp [streamCallback, hss] at h
      | writeFail =>
        simp only [streamCallback, hss, if_true] at h
        split at h <;> simp at h
        · rcases h with rfl | rfl
          · exact Or.inr (Or.inl ⟨_, rfl⟩)
          · exact Or.inr (Or.inr rfl)
        · exact Or.inr (Or.inl ⟨_, h⟩)

lemma runSamples_msgs_shape (evs : List SampleEvent) (st : WorkerState) (m : Msg)
    (h : m ∈ (runSamples st evs).msgs) :
    (∃ n, m = .bufferConversionError n) ∨ (∃ n, m = .writeError n) ∨ m = .tooManyErrors := by
  induction evs generalizing st with
  | nil => simp [runSamples] at h
  | cons ev rest ih =>
    simp only [runSamples] at h
    split at h
    · exact streamCallback_msgs_shape st ev m h
    · simp only [List.mem_append] at h
      rcases h with h | h
      · exact streamCallback_msgs_shape st ev m h
      · exact ih _ h

lemma streamCallback_stopped_msgs (st : WorkerState) (ev : SampleEvent)
    (h : (streamCallback st ev).stopped = true) :
    ∃ q, (streamCallback st ev).msgs = q ++ [.tooManyErrors] := by
  cases ev with
  | nonAudio => simp [streamCallback] at h
  | audio o =>
    cases hss : st.streamStarted with
    | false => simp [streamCallback, hss] at h
    | true =>
      cases o with
      | convFail => simp [streamCallback, hss] at h
      | writeOk => simp [streamCallback, hss] at h
      | writeFail =>
        simp only [streamCallback, hss, if_true] at h ⊢
        split at h
        · exact ⟨[.writeError (st.writeErrorCount + 1)], by simp_all⟩
        · simp at h

lemma getLastD_mem {α : Type} (L : List α) (d : α) (h : L ≠ []) : L.getLastD d ∈ L := by
  induction L generalizing d with
  | nil => exact absurd rfl h
  | cons a t ih =>
    cases t with
    | nil => simp [List.getLastD]
    | cons z t' =>
      rw [List.getLastD_cons]
      exact List.mem_cons_of_mem a (ih a (by simp))

lemma getLastD_irrel {α : Type} (L : List α) (x y : α) (h : L ≠ []) :
    L.getLastD x = L.getLastD y := by
  cases L with
  | nil => exact absurd rfl h
  | cons a t => rw [List.getLastD_cons, List.getLastD_cons]

lemma getLastD_append {α : Type} (l r : List α) (d : α) (h : r ≠ []) :
    (l ++ r).getLastD d = r.getLastD d := by
  induction l generalizing d with
  | nil => rfl
  | cons a t ih =>
    rw [List.cons_append, List.getLastD_cons, ih a]
    exact getLastD_irrel r a d h

lemma splitNl_ne_nil (s : List Char) : splitNl s ≠ [] := by
  cases s with
  | nil => simp [splitNl]
  | cons c t =>
    show splitStep c (splitNl t) ≠ []
    unfold splitStep
    split <;> simp

lemma splitNl_cons (c : Char) (t : List Char) :
    splitNl (c :: t) = splitStep c (splitNl t) := rfl

lemma no_newline_of_mem_splitNl (s l : List Char) (h : l ∈ splitNl s)
    (c : Char) (hc : c = Char.ofNat 10) : c ∉ l := by
  subst hc
  induction s generalizing l with
  | nil =>
    simp only [splitNl, List.foldr, List.mem_singleton] at h
    simp [h]
  | cons a t ih =>
    rw [splitNl_cons] at h
    unfold splitStep at h
    split at h
    · rcases List.mem_cons.mp h with rfl | h2
      · simp
      · exact ih l h2
    · rename_i ha
      rcases List.mem_cons.mp h with rfl | h2
      · intro hmem
        rcases List.mem_cons.mp hmem with rfl | h3
        · exact ha rfl
        · have hhead : (splitNl t).headD [] ∈ splitNl t := by
            cases hA : splitNl t with
            | nil => exact absurd hA (splitNl_ne_nil t)
            | cons x u => simp
          exact ih _ hhead h3
      · exact ih l (List.mem_of_mem_tail h2)

lemma splitNl_of_no_newline (s : List Char) (h : Char.ofNat 10 ∉ s) :
    splitNl s = [s] := by
  induction s with
  | nil => rfl
  | cons c t ih =>
    rw [splitNl_cons]
    have hc : ¬ c = Char.ofNat 10 := fun hcc => h (hcc ▸ List.mem_cons_self c t)
    have ht : Char.ofNat 10 ∉ t := fun htt => h (List.mem_cons_of_mem c htt)
    unfold splitStep
    rw [if_neg (by simpa using hc), ih ht]
    rfl

lemma newline_eq : '\n' = Char.ofNat 10 := rfl

lemma splitNl_append (a b : List Char) :
    splitNl (a ++ b) =
      (splitNl a).dropLast
        ++ List.modifyHead (fun h => (splitNl a).getLastD [] ++ h) (splitNl b) := by
  induction a with
  | nil =>
    rw [List.nil_append]
    cases hB : splitNl b with
    | nil => exact absurd hB (splitNl_ne_nil b)
    | cons y u =>
      show y :: u = ([[]] : List (List Char)).dropLast
        ++ List.modifyHead (fun h => ([[]] : List (List Char)).getLastD [] ++ h) (y :: u)
      simp [List.modifyHead]
  | cons c t ih =>
    rw [List.cons_append, splitNl_cons, splitNl_cons, ih]
    unfold splitStep
    by_cases hc : c = '\n'
    · rw [if_pos hc, if_pos hc]
      cases hA : splitNl t with
      | nil => exact absurd hA (splitNl_ne_nil t)
      | cons x u =>
        simp only [List.getLastD_cons, List.dropLast_cons₂, List.cons_append]
    · rw [if_neg hc, if_neg hc]
      cases hA : splitNl t with
      | nil => exact absurd hA (splitNl_ne_nil t)
      | cons x u =>
        cases u with
        | nil =>
          cases hB : splitNl b with
          | nil => exact absurd hB (splitNl_ne_nil b)
          | cons y v =>
            simp [List.modifyHead, List.getLastD]
        | cons z u' =>
          simp only [List.dropLast_cons₂, List.cons_append, List.headD_cons,
            List.tail_cons, List.getLastD_cons]

lemma feed_append (buf c1 c2 : List Char) :
    feed buf (c1 ++ c2) =
      ((feed (feed buf c1).1 c2).1, (feed buf c1).2 ++ (feed (feed buf c1).1 c2).2) := by
  have hassoc : buf ++ (c1 ++ c2) = (buf ++ c1) ++ c2 := (List.append_assoc buf c1 c2).symm
  have hlastA : Char.ofNat 10 ∉ (splitNl (buf ++ c1)).getLastD [] :=
    no_newline_of_mem_splitNl (buf ++ c1) _
      (getLastD_mem _ _ (splitNl_ne_nil (buf ++ c1))) _ rfl
  have hsingle : splitNl ((splitNl (buf ++ c1)).getLastD []) =
      [(splitNl (buf ++ c1)).getLastD []] := splitNl_of_no_newline _ hlastA
  have hkey : splitNl (buf ++ (c1 ++ c2)) =
      (splitNl (buf ++ c1)).dropLast ++ splitNl ((splitNl (buf ++ c1)).getLastD [] ++ c2) := by
    rw [hassoc, splitNl_append (buf ++ c1) c2, splitNl_append _ c2, hsingle]
    rfl
  have hC : splitNl ((splitNl (buf ++ c1)).getLastD [] ++ c2) ≠ [] := splitNl_ne_nil _
  simp only [feed]
  rw [hkey, getLastD_append _ _ _ hC, List.dropLast_append_of_ne_nil _ hC, List.filter_append]

lemma feedAll_eq (chunks : List (List Char)) :
    ∀ buf : List Char, Char.ofNat 10 ∉ buf → feedAll buf chunks = feed buf chunks.flatten := by
  induction chunks with
  | nil =>
    intro buf hbuf
    show (buf, []) = feed buf []
    unfold feed
    rw [List.append_nil, splitNl_of_no_newline buf hbuf]
    rfl
  | cons c cs ih =>
    intro buf hbuf
    show ((feedAll (feed buf c).1 cs).1, (feed buf c).2 ++ (feedAll (feed buf c).1 cs).2)
      = feed buf (c :: cs).flatten
    have hb1 : Char.ofNat 10 ∉ (feed buf c).1 :=
      no_newline_of_mem_splitNl (buf ++ c) _
        (getLastD_mem _ _ (splitNl_ne_nil (buf ++ c))) _ rfl
    rw [ih (feed buf c).1 hb1, List.flatten_cons, feed_append buf c cs.flatten]

lemma runSamples_stopped_msgs (evs : List SampleEvent) (st : WorkerState)
    (h : (runSamples st evs).stopped = true) :
    ∃ q, (runSamples st evs).msgs = q ++ [.tooManyErrors] := by
  induction evs generalizing st with
  | nil => simp [runSamples] at h
  | cons ev rest ih =>
    simp only [runSamples] at h ⊢
    split at h
    · rename_i hs
      simp only [hs, ite_true]
      exact streamCallback_stopped_msgs st ev hs
    · rename_i hs
      simp only [hs, Bool.false_eq_true, ite_false] at h ⊢
      obtain ⟨q, hq⟩ := ih _ h
      exact ⟨(streamCallback st ev).msgs ++ q, by simp [hq]⟩

lemma settled_mono (events : List SupEvent) (st : SupState) (r : SettleResult)
    (h : st.settled = some r) : (events.foldl stepEvent st).settled = some r := by
  induction events generalizing st with
  | nil => exact h
  | cons e rest ih =>
    rw [List.foldl_cons]
    apply ih
    cases e with
    | stdoutLine l =>
      cases l with
      | nonJson => exact h
      | msg m =>
        simp only [stepEvent]
        split
        · simp [settleOnce, h]
        · split
          · split
            · exact h
            · simp [settleOnce, h]
          · exact h
    | closed code =>
      cases code with
      | none => exact h
      | some k =>
        simp only [stepEvent]
        split
        · simp [settleOnce, h]
        · exact h
    | spawnFailed => simp [stepEvent, settleOnce, h]

/-- C1: whenever the consecutive write-error counter reaches the threshold of
10 uninterrupted write failures with no intervening successful write, the
worker emits `TOO_MANY_ERRORS` after the tenth `WRITE_ERROR` and runs the stop
path, which emits `RECORDING_STOPPED` and exits 0; the samples delivered after
the threshold are never processed. -/
theorem c1_write_error_threshold_aborts
    (pre post : List SampleEvent) (intr stopErr : Bool)
    (hstop : (runSamples ⟨true, 0⟩ pre).stopped = false)
    (hcnt : (runSamples ⟨true, 0⟩ pre).state.writeErrorCount = 0) :
    streamingPhase ⟨true, 0⟩ (pre ++ (List.replicate 10 (.audio .writeFail) ++ post)) intr stopErr
      = ((runSamples ⟨true, 0⟩ pre).msgs
          ++ ([.writeError 1, .writeError 2, .writeError 3, .writeError 4, .writeError 5,
               .writeError 6, .writeError 7, .writeError 8, .writeError 9, .writeError 10,
               .tooManyErrors]
              ++ cleanupMsgs stopErr), some 0) := by
  have hstate : (runSamples ⟨true, 0⟩ pre).state = ⟨true, 0⟩ := by
    have h1 := runSamples_streamStarted pre ⟨true, 0⟩
    cases h2 : (runSamples ⟨true, 0⟩ pre).state with
    | mk a b =>
      rw [h2] at h1 hcnt
      simp only at h1 hcnt
      rw [h1, hcnt]
  have hmid := runSamples_append_stopped (List.replicate 10 (.audio .writeFail)) post
    ⟨true, 0⟩ (by rw [runSamples_ten_writeFail])
  have hfull := runSamples_append pre (List.replicate 10 (.audio .writeFail) ++ post)
    ⟨true, 0⟩ hstop
  rw [hstate, hmid, runSamples_ten_writeFail] at hfull
  simp only [streamingPhase]
  rw [hfull]
  simp

/-- Closed instance of `c1_write_error_threshold_aborts` at the empty prefix
and suffix. -/
theorem c1_witness :
    streamingPhase ⟨true, 0⟩
        (([] : List SampleEvent) ++ (List.replicate 10 (.audio .writeFail) ++ [])) false false
      = ((runSamples ⟨true, 0⟩ []).msgs
          ++ ([.writeError 1, .writeError 2, .writeError 3, .writeError 4, .writeError 5,
               .writeError 6, .writeError 7, .writeError 8, .writeError 9, .writeError 10,
               .tooManyErrors]
              ++ cleanupMsgs false), some 0) :=
  c1_write_error_threshold_aborts [] [] false false (by decide) (by decide)

/-- C2: the counter counts consecutive failures, not cumulative ones: a
successful write resets it to 0 from any value, and a trace of 9 write
failures, one success and 9 more failures never initiates the fatal abort and
never emits `TOO_MANY_ERRORS`. -/
theorem c2_counter_is_consecutive :
    (∀ c : Nat, streamCallback ⟨true, c⟩ (.audio .writeOk) = ⟨⟨true, 0⟩, [], false⟩)
    ∧ (runSamples ⟨true, 0⟩
        (List.replicate 9 (.audio .writeFail)
          ++ .audio .writeOk :: List.replicate 9 (.audio .writeFail))).stopped = false
    ∧ Msg.tooManyErrors ∉ (runSamples ⟨true, 0⟩
        (List.replicate 9 (.audio .writeFail)
          ++ .audio .writeOk :: List.replicate 9 (.audio .writeFail))).msgs :=
  ⟨fun _ => rfl, by decide, by decide⟩

/-- C3: the incremental line parser of the supervisor is equivalent to a
single-read parse: for every byte stream and every split of it into chunks at
arbitrary boundaries, accumulating chunks, splitting on newline, processing
only the newline-terminated segments and retaining the trailing partial
segment yields the same final buffer and the same candidate lines, in the
same order, as feeding the whole stream in one read. -/
theorem c3_framer_incremental_eq_single_read (chunks : List (List Char)) :
    feedAll [] chunks = feed [] chunks.flatten :=
  feedAll_eq chunks [] (by simp)

/-- C4: over any sequence of protocol events (parsed stdout lines and process
close), the `startRecording` promise resolves exactly on the first
`RECORDING_STARTED` and rejects on the first earlier fatal code or non-zero
exit code, as described by the specification-side `specSettle`. -/
theorem c4_start_promise_settlement (events : List SupEvent)
    (h : SupEvent.spawnFailed ∉ events) :
    (runSup events).settled = specSettle events := by
  unfold runSup
  induction events with
  | nil => rfl
  | cons e rest ih =>
    have he : e ≠ .spawnFailed := fun hee => h (hee ▸ List.mem_cons_self e rest)
    have hrest : SupEvent.spawnFailed ∉ rest := fun hr => h (List.mem_cons_of_mem e hr)
    rw [List.foldl_cons]
    cases e with
    | stdoutLine l =>
      cases l with
      | nonJson => exact (ih hrest).trans (by simp [specSettle])
      | msg m =>
        by_cases hm : m = .recordingStarted
        · subst hm
          rw [settled_mono rest (stepEvent ⟨false, none⟩
            (.stdoutLine (.msg .recordingStarted))) .resolvedStart rfl]
          simp [specSettle]
        · by_cases hf : isFatal m
          · rw [settled_mono rest _ (.rejectedFatal m)
              (by simp [stepEvent, hm, hf, settleOnce])]
            simp [specSettle, hm, hf]
          · have hstep : stepEvent ⟨false, none⟩ (.stdoutLine (.msg m)) = ⟨false, none⟩ := by
              simp [stepEvent, hm, hf]
            rw [hstep, ih hrest]
            simp [specSettle, hm, hf]
    | closed code =>
      cases code with
      | none =>
        rw [show stepEvent ⟨false, none⟩ (.closed none) = ⟨false, none⟩ from rfl, ih hrest]
        simp [specSettle]
      | some k =>
        by_cases hk : k = 0
        · subst hk
          rw [show stepEvent ⟨false, none⟩ (.closed (some 0)) = ⟨false, none⟩ from rfl,
            ih hrest]
          simp [specSettle]
        · rw [settled_mono rest _ (.rejectedExit k) (by simp [stepEvent, hk, settleOnce])]
          simp [specSettle, hk]
    | spawnFailed => exact absurd rfl he

/-- Closed instance of `c4_start_promise_settlement`: a non-fatal error line,
then start confirmation, then a clean exit. -/
theorem c4_witness :
    (runSup [.stdoutLine (.msg (.writeError 1)), .stdoutLine (.msg .recordingStarted),
             .closed (some 0)]).settled
      = specSettle [.stdoutLine (.msg (.writeError 1)), .stdoutLine (.msg .recordingStarted),
                    .closed (some 0)] :=
  c4_start_promise_settlement _ (by decide)

/-- C5: while a recording is active (the `activeRecorder` slot is occupied), a
second `start-system-audio` request fails with the already-in-progress error
and spawns no second worker process, leaving the slot unchanged. -/
theorem c5_second_start_fails_without_spawn (recordingStarts : Bool) :
    startSystemAudio true true recordingStarts =
      ⟨true, .alreadyInProgress, false⟩ := rfl

lemma streamingPhase_msgs_shape (st : WorkerState) (samples : List SampleEvent)
    (intr stopErr : Bool) (m : Msg)
    (h : m ∈ (streamingPhase st samples intr stopErr).1) :
    (∃ n, m = .bufferConversionError n) ∨ (∃ n, m = .writeError n) ∨ m = .tooManyErrors
      ∨ m = .stopping ∨ m = .stopError ∨ m = .recordingStopped := by
  simp only [streamingPhase] at h
  split at h
  · simp only at h
    rcases List.mem_append.mp h with h2 | h2
    · have := runSamples_msgs_shape samples st m h2
      tauto
    · unfold cleanupMsgs at h2
      split at h2 <;> simp at h2 <;> tauto
  · split at h
    · simp only at h
      rcases List.mem_append.mp h with h2 | h2
      · have := runSamples_msgs_shape samples st m h2
        tauto
      · rcases List.mem_cons.mp h2 with rfl | h3
        · tauto
        · unfold cleanupMsgs at h3
          split at h3 <;> simp at h3 <;> tauto
    · simp only at h
      have := runSamples_msgs_shape samples st m h
      tauto

lemma streamingPhase_no_fatal (st : WorkerState) (samples : List SampleEvent)
    (intr stopErr : Bool) (m : Msg)
    (hm : m ∈ (streamingPhase st samples intr stopErr).1)
    (hf : m ∈ [Msg.invalidArgs, .permissionDenied, .contentError, .noDisplay,
               .fileError, .streamError]) : False := by
  rcases streamingPhase_msgs_shape st samples intr stopErr m hm with
    ⟨n, rfl⟩ | ⟨n, rfl⟩ | rfl | rfl | rfl | rfl <;> simp at hf

/-- C6 counterexample: buffer-conversion failures are counted in the same
`writeErrorCount` used for write errors, so they do contribute to reaching the
fatal threshold: 9 conversion failures followed by a single write failure
already initiate the fatal abort and emit `TOO_MANY_ERRORS`. -/
theorem c6_counterexample :
    (runSamples ⟨true, 0⟩
      (List.replicate 9 (.audio .convFail) ++ [.audio .writeFail])).stopped = true
    ∧ Msg.tooManyErrors ∈ (runSamples ⟨true, 0⟩
        (List.replicate 9 (.audio .convFail) ++ [.audio .writeFail])).msgs := by
  decide

/-- C6 (amended): a conversion failure increments the same `writeErrorCount`
counter used for write errors, emits `BUFFER_CONVERSION_ERROR` with the
running count only while the counter is below 5, and never itself initiates
the fatal abort (the threshold is only checked on a write failure) — but the
increments it leaves behind do count toward the threshold of 10, as 9
conversion failures plus one write failure show. -/
theorem c6_conversion_failures_share_counter :
    (∀ c : Nat, streamCallback ⟨true, c⟩ (.audio .convFail)
        = ⟨⟨true, c + 1⟩,
           if c + 1 < 5 then [.bufferConversionError (c + 1)] else [], false⟩)
    ∧ (∀ c : Nat, (streamCallback ⟨true, c⟩ (.audio .convFail)).stopped = false)
    ∧ ((runSamples ⟨true, 0⟩
          (List.replicate 9 (.audio .convFail) ++ [.audio .writeFail])).msgs
        = [.bufferConversionError 1, .bufferConversionError 2, .bufferConversionError 3,
           .bufferConversionError 4, .writeError 10, .tooManyErrors]) :=
  ⟨fun _ => rfl, fun _ => rfl, by decide⟩

/-- C7 counterexample: after emitting the fatal code `TOO_MANY_ERRORS` the
worker does emit further messages before exiting — the stop path emits
`RECORDING_STOPPED` (and possibly `STOP_ERROR`) after it. -/
theorem c7_counterexample :
    (streamingPhase ⟨true, 0⟩ (List.replicate 10 (.audio .writeFail)) false false).1
      = [.writeError 1, .writeError 2, .writeError 3, .writeError 4, .writeError 5,
         .writeError 6, .writeError 7, .writeError 8, .writeError 9, .writeError 10,
         .tooManyErrors, .recordingStopped]
    ∧ (streamingPhase ⟨true, 0⟩
        (List.replicate 10 (.audio .writeFail)) false false).1.getLast?
      = some .recordingStopped := by
  decide

/-- C7 (amended): the fatal codes `INVALID_ARGS`, `PERMISSION_DENIED`,
`CONTENT_ERROR`, `NO_DISPLAY`, `FILE_ERROR` and `STREAM_ERROR` are always the
last message the worker emits before exiting; `TOO_MANY_ERRORS`, however, is
followed by exactly the stop path (an optional `STOP_ERROR`, then
`RECORDING_STOPPED`) before the process exits. -/
theorem c7_fatal_codes_final_except_threshold :
    (∀ (cli : Cli) (m : Msg), m ∈ (workerMain cli).1 →
      m ∈ [Msg.invalidArgs, .permissionDenied, .contentError, .noDisplay,
           .fileError, .streamError] →
      (workerMain cli).1.getLast? = some m)
    ∧ (∀ (samples : List SampleEvent) (intr stopErr : Bool),
        (runSamples ⟨true, 0⟩ samples).stopped = true →
        List.IsSuffix (Msg.tooManyErrors :: cleanupMsgs stopErr)
          (streamingPhase ⟨true, 0⟩ samples intr stopErr).1) := by
  constructor
  · intro cli m hmem hfatal
    cases cli with
    | noArgs =>
      simp only [workerMain, List.mem_singleton] at hmem
      subst hmem
      rfl
    | recordNoPath =>
      simp only [workerMain, List.mem_singleton] at hmem
      subst hmem
      rfl
    | unknown =>
      simp only [workerMain, List.mem_singleton] at hmem
      subst hmem
      rfl
    | checkPerms p r =>
      cases p with
      | true =>
        simp only [workerMain, workerCheckPermissions, if_true] at hmem
        simp at hmem
        subst hmem
        simp at hfatal
      | false =>
        cases r with
        | true =>
          simp [workerMain, workerCheckPermissions] at hmem
          subst hmem
          simp at hfatal
        | false =>
          simp [workerMain, workerCheckPermissions] at hmem
          subst hmem
          rfl
    | record e =>
      simp only [workerMain] at hmem ⊢
      unfold workerRecord at hmem ⊢
      by_cases h1 : e.permissionGranted = false
      · rw [if_pos h1] at hmem ⊢
        simp only [List.mem_singleton] at hmem
        subst hmem
        rfl
      · rw [if_neg h1] at hmem ⊢
        by_cases h2 : e.contentError = true
        · rw [if_pos h2] at hmem ⊢
          simp only [List.mem_singleton] at hmem
          subst hmem
          rfl
        · rw [if_neg h2] at hmem ⊢
          by_cases h3 : e.hasDisplay = false
          · rw [if_pos h3] at hmem ⊢
            simp only [List.mem_singleton] at hmem
            subst hmem
            rfl
          · rw [if_neg h3] at hmem ⊢
            by_cases h4 : e.flacOk = false ∧ e.wavOk = false
            · rw [if_pos h4] at hmem ⊢
              simp only [List.mem_append, List.mem_singleton] at hmem
              rcases hmem with hfm | rfl
              · have hd : m = .debug := by
                  revert hfm
                  split <;> simp
                subst hd
                simp at hfatal
              · exact List.getLast?_concat _
            · rw [if_neg h4] at hmem ⊢
              by_cases h5 : e.addOutputThrows = true
              · rw [if_pos h5] at hmem ⊢
                simp only [List.mem_append, List.mem_singleton] at hmem
                rcases hmem with hfm | rfl
                · have hd : m = .debug := by
                    revert hfm
                    split <;> simp
                  subst hd
                  simp at hfatal
                · exact List.getLast?_concat _
              · rw [if_neg h5] at hmem ⊢
                by_cases h6 : e.startCaptureError = true
                · rw [if_pos h6] at hmem ⊢
                  simp only [startCaptureCompletion, if_true, List.mem_append,
                    List.mem_singleton] at hmem
                  rcases hmem with hfm | rfl
                  · have hd : m = .debug := by
                      revert hfm
                      split <;> simp
                    subst hd
                    simp at hfatal
                  · exact List.getLast?_concat _
                · rw [if_neg h6] at hmem ⊢
                  exfalso
                  simp only [List.append_assoc, List.mem_append] at hmem
                  rcases hmem with hfm | hmem2
                  · have hd : m = .debug := by
                      revert hfm
                      split <;> simp
                    subst hd
                    simp at hfatal
                  · rcases hmem2 with hrs | hsp
                    · have hd : m = .recordingStarted := by
                        simpa [startCaptureCompletion] using hrs
                      subst hd
                      simp at hfatal
                    · exact streamingPhase_no_fatal _ _ _ _ m hsp hfatal
  · intro samples intr stopErr h
    obtain ⟨q, hq⟩ := runSamples_stopped_msgs samples ⟨true, 0⟩ h
    simp only [streamingPhase]
    rw [h]
    simp only [if_true]
    refine ⟨q, ?_⟩
    rw [hq]
    simp

/-- Closed instances of `c7_fatal_codes_final_except_threshold`: a
permission-denied run ends on `PERMISSION_DENIED`, and a threshold abort is
followed by exactly the stop path. -/
theorem c7_witness :
    (workerMain (.record ⟨false, false, true, true, true, false, false, [], false, false⟩)).1.getLast?
      = some Msg.permissionDenied
    ∧ List.IsSuffix (Msg.tooManyErrors :: cleanupMsgs false)
        (streamingPhase ⟨true, 0⟩ (List.replicate 10 (.audio .writeFail)) false false).1 :=
  ⟨c7_fatal_codes_final_except_threshold.1 _ Msg.permissionDenied (by decide) (by decide),
   c7_fatal_codes_final_except_threshold.2
     (List.replicate 10 (.audio .writeFail)) false false (by decide)⟩

/-- C8 counterexample: when the check worker exits 0 but the captured output
fails to parse, `checkPermissions()` raises (the `JSON.parse` call in the
close handler is unguarded) instead of resolving to false. -/
theorem c8_counterexample :
    checkPermissionsRun (some 0) none = CheckResult.threw
    ∧ checkPermissionsRun (some 0) none ≠ CheckResult.resolved false := by
  decide

/-- C8 (amended): `checkPermissions()` resolves to true exactly when the
worker exits 0 and the output parses with the granted code, and resolves to
false on any non-zero or null exit code; but on a zero exit with unparseable
output it raises rather than resolving to false.  Composed with the worker's
own `--check-permissions` path (which always prints one valid JSON line), the
check never raises and resolves to preflight-or-request-granted. -/
theorem c8_check_permissions_behavior :
    (∀ (code : Option Nat) (parsed : Option (Option Msg)), code ≠ some 0 →
      checkPermissionsRun code parsed = .resolved false)
    ∧ (∀ mc : Option Msg, checkPermissionsRun (some 0) (some mc)
        = .resolved (decide (mc = some Msg.permissionGranted)))
    ∧ checkPermissionsRun (some 0) none = .threw
    ∧ (∀ preflight requestGranted : Bool,
        composedPermissionCheck preflight requestGranted
          = .resolved (preflight || requestGranted)) := by
  refine ⟨?_, fun _ => rfl, rfl, ?_⟩
  · intro code parsed hc
    cases code with
    | none => rfl
    | some k =>
      cases k with
      | zero => exact absurd rfl hc
      | succ n => rfl
  · intro preflight requestGranted
    cases preflight <;> cases requestGranted <;> rfl

/-- Closed instance of `c8_check_permissions_behavior`: a non-zero exit
resolves to false even with unparseable output. -/
theorem c8_witness :
    checkPermissionsRun (some 1) none = CheckResult.resolved false :=
  c8_check_permissions_behavior.1 (some 1) none (by decide)

/-- C9 counterexample: `streamStarted` is not set by the first successful
sample callback — a successful write callback from the unstarted state leaves
it false, while the `startCapture` success completion sets it; and a started
run that never receives a sample emits nothing beyond `RECORDING_STARTED` and
never exits: no stream-not-started condition is ever reported. -/
theorem c9_counterexample :
    (streamCallback ⟨false, 0⟩ (.audio .writeOk)).state.streamStarted = false
    ∧ (startCaptureCompletion ⟨false, 0⟩ false).1.streamStarted = true
    ∧ workerRecord ⟨true, false, true, true, true, false, false, [], false, false⟩
        = ([.recordingStarted], none) := by
  decide

/-- C9 (amended): `streamStarted` is set true by the `startCapture` success
completion handler, not by the sample callback, which never modifies it and
only drops samples while it is false; the worker enforces no internal
deadline — a session whose stream starts but delivers no samples emits only
`RECORDING_STARTED` and then blocks indefinitely without reporting any
stream-not-started condition. -/
theorem c9_no_stream_start_deadline :
    (∀ (st : WorkerState) (ev : SampleEvent),
        (streamCallback st ev).state.streamStarted = st.streamStarted)
    ∧ (∀ st : WorkerState, (startCaptureCompletion st false).1.streamStarted = true)
    ∧ (∀ (c : Nat) (ev : SampleEvent), streamCallback ⟨false, c⟩ ev = ⟨⟨false, c⟩, [], false⟩)
    ∧ (∀ e : RecordEnv, e.permissionGranted = true → e.contentError = false →
        e.hasDisplay = true → e.flacOk = true → e.addOutputThrows = false →
        e.startCaptureError = false → e.samples = [] → e.interrupted = false →
        workerRecord e = ([.recordingStarted], none)) := by
  refine ⟨streamCallback_streamStarted, fun st => rfl, fun c ev => ?_, ?_⟩
  · cases ev <;> rfl
  · intro e h1 h2 h3 h4 h5 h6 h7 h8
    simp [workerRecord, streamingPhase, runSamples, startCaptureCompletion,
      h1, h2, h3, h4, h5, h6, h7, h8]

/-- Closed instance of `c9_no_stream_start_deadline` at a run whose FLAC sink
opens but whose WAV fallback would not have. -/
theorem c9_witness :
    workerRecord ⟨true, false, true, true, false, false, false, [], false, false⟩
      = ([.recordingStarted], none) :=
  c9_no_stream_start_deadline.2.2.2 _ rfl rfl rfl rfl rfl rfl rfl rfl

/-- C10: a threshold abort runs the normal stop path and exits with status 0,
exactly like a user-requested (SIGINT) stop, so the exit code alone cannot
distinguish the two; and the supervisor's close handler never rejects on a
zero (or null) exit code, so its exit-code-based rejection never fires for
such an abort. -/
theorem c10_error_abort_exits_zero :
    (∀ (samples : List SampleEvent) (intr stopErr : Bool),
        (runSamples ⟨true, 0⟩ samples).stopped = true →
        (streamingPhase ⟨true, 0⟩ samples intr stopErr).2 = some 0)
    ∧ (∀ (samples : List SampleEvent) (stopErr : Bool),
        (streamingPhase ⟨true, 0⟩ samples true stopErr).2 = some 0)
    ∧ (∀ st : SupState, stepEvent st (.closed (some 0)) = st
        ∧ stepEvent st (.closed none) = st) := by
  refine ⟨?_, ?_, fun st => ⟨rfl, rfl⟩⟩
  · intro samples intr stopErr h
    simp only [streamingPhase]
    rw [h]
    simp
  · intro samples stopErr
    simp only [streamingPhase]
    cases hx : (runSamples ⟨true, 0⟩ samples).stopped <;> simp [hx]

/-- Closed instance of `c10_error_abort_exits_zero`: a threshold abort exits
with status 0. -/
theorem c10_witness :
    (streamingPhase ⟨true, 0⟩ (List.replicate 10 (.audio .writeFail)) false false).2
      = some 0 :=
  c10_error_abort_exits_zero.1 (List.replicate 10 (.audio .writeFail)) false false
    (by decide)
